import Mathlib

/-!
# Verification of the `pendulum.parsing` core

Shallow embedding of `src/pendulum/parsing/__init__.py`:

* `COMMONmatch` embeds the anchored `COMMON` regular expression (with its
  named capture groups rendered as the record `Groups`);
* `_parse_common`, `_parse`, `_normalize` and `parse` embed the functions of
  the same names, with Python exceptions rendered as `Except PyError`;
* the option dictionary handling of `parse` (`copy.copy(DEFAULT_OPTIONS)`
  followed by `update`) is embedded at the dictionary level by
  `resolveOptions` over `OptDict`.

The strict-format matcher `parse_iso8601` is imported by the source from
`pendulum.parsing.iso8601`, a module that is not part of the sources here; it
is modelled from the specification (see its doc comment below).  The external
natural-language fallback (`dateutil.parser.parse`) is an external
collaborator and is kept as a parameter of the dispatcher.

Modelling conventions: Python digits (`\d`) are modelled as the ASCII digits
`0`-`9`; Python `re` `$` anchoring, which also matches just before one
trailing newline, is handled by `stripTrailingNewline` (no token of the
`COMMON` pattern can consume a newline, so a full anchored match is exactly a
core match of the input with one trailing newline removed).
-/

namespace Pendulum

/-- A parsed value: `datetime.date`, `datetime.time` or `datetime.datetime`.
The constructors are disjoint, mirroring the `isinstance` discrimination used
by `_normalize` (`datetime.time` is not a `date`; the `datetime` case is
singled out before the plain `date` case in the source). -/
inductive Parsed where
  | date (year month day : Nat)
  | time (hour minute second microsecond : Nat)
  | datetime (year month day hour minute second microsecond : Nat)
deriving DecidableEq, Repr

/-- The Python exceptions that can cross the boundaries of this module:
`pendulum.parsing.exceptions.ParserError`, `ValueError` (also raised by the
`datetime` constructors), and `TypeError` (raised by `int(None)`). -/
inductive PyError where
  | parserError (msg : String)
  | valueError (msg : String)
  | typeError (msg : String)
deriving DecidableEq, Repr

/-! ## `datetime` constructor range checks (CPython semantics) -/

def isLeap (y : Nat) : Bool :=
  y % 4 == 0 && (y % 100 != 0 || y % 400 == 0)

def daysInMonth (y m : Nat) : Nat :=
  if m = 2 then (if isLeap y then 29 else 28)
  else if m = 4 ∨ m = 6 ∨ m = 9 ∨ m = 11 then 30
  else 31

/-- Range validation performed by `datetime.date` / the date fields of
`datetime.datetime` (MINYEAR = 1, MAXYEAR = 9999). -/
def checkDate (y m d : Nat) : Option PyError :=
  if ¬(1 ≤ y ∧ y ≤ 9999) then some (.valueError ("year " ++ toString y ++ " is out of range"))
  else if ¬(1 ≤ m ∧ m ≤ 12) then some (.valueError "month must be in 1..12")
  else if ¬(1 ≤ d ∧ d ≤ daysInMonth y m) then some (.valueError "day is out of range for month")
  else none

/-- Range validation performed by `datetime.time` / the time fields of
`datetime.datetime`. -/
def checkTime (h mi s us : Nat) : Option PyError :=
  if ¬(h ≤ 23) then some (.valueError "hour must be in 0..23")
  else if ¬(mi ≤ 59) then some (.valueError "minute must be in 0..59")
  else if ¬(s ≤ 59) then some (.valueError "second must be in 0..59")
  else if ¬(us ≤ 999999) then some (.valueError "microsecond must be in 0..999999")
  else none

/-- `datetime.date(y, m, d)`. -/
def mkDate (y m d : Nat) : Except PyError Parsed :=
  match checkDate y m d with
  | some e => .error e
  | none => .ok (.date y m d)

/-- `datetime.time(h, mi, s, us)`. -/
def mkTime (h mi s us : Nat) : Except PyError Parsed :=
  match checkTime h mi s us with
  | some e => .error e
  | none => .ok (.time h mi s us)

/-- `datetime.datetime(y, m, d, h, mi, s, us)`. -/
def mkDatetime (y m d h mi s us : Nat) : Except PyError Parsed :=
  match checkDate y m d with
  | some e => .error e
  | none =>
    match checkTime h mi s us with
    | some e => .error e
    | none => .ok (.datetime y m d h mi s us)

/-! ## The `COMMON` regular expression

```
^(?P<date>(?P<classic>(?P<year>\d{4})
    (?P<monthday>(?P<monthsep>[/:])?(?P<month>\d{2})
                 ((?P<daysep>[/:])?(?P<day>\d{2})))?))?
 (?P<time>(?P<timesep>\ )?(?P<hour>\d{1,2}):(?P<minute>\d{1,2})?:(?P<second>\d{1,2})?
    (?P<subsecondsection>(?:[.|,])(?P<subsecond>\d{1,9}))?)?$
```

rendered as an explicit backtracking matcher over `List Char`.  Greedy
alternatives are tried in the Python engine order (longer repetition counts
first, presence of an optional group before absence), each alternative being
explored to the end anchor before the next one is tried; a cascade of
`match ... with | some .. | none ..` realizes exactly that order. -/

/-- Capture groups of the time part of `COMMON` (digit strings). -/
structure TimeGroups where
  hour : List Char
  minute : Option (List Char)
  second : Option (List Char)
  subsecond : Option (List Char)
deriving DecidableEq, Repr

/-- Capture groups of the date part of `COMMON`: the `monthday` pair holds the
`month`-position group and the `day`-position group. -/
structure DateGroups where
  year : List Char
  monthday : Option (List Char × List Char)
deriving DecidableEq, Repr

/-- Capture groups of a full `COMMON` match. -/
structure Groups where
  date : Option DateGroups
  time : Option TimeGroups
deriving DecidableEq, Repr

def allDigits (s : List Char) : Bool :=
  s.all (fun c => c.isDigit)

/-- The subsecond separator class `[.|,]` (note that it contains `|`). -/
def fracSep (c : Char) : Bool :=
  c == '.' || c == '|' || c == ','

/-- `\d{k}`: exactly `k` ASCII digits. -/
def takeDigits : Nat → List Char → Option (List Char × List Char)
  | 0, s => some ([], s)
  | _ + 1, [] => none
  | k + 1, c :: s =>
    if c.isDigit then (takeDigits k s).map (fun p => (c :: p.1, p.2)) else none

/-- `[/:]?`: an optional date separator (deterministic: a separator character
can never begin the `\d{2}` that follows). -/
def stripSep (s : List Char) : List Char :=
  match s with
  | c :: r => if c = '/' ∨ c = ':' then r else c :: r
  | [] => []

/-- `(?:[.|,])(?P<subsecond>\d{1,9})?` followed by the end anchor: the
remainder is either empty (no subsecond section) or a separator followed by
one to nine digits reaching the end. -/
def matchFracEnd : List Char → Option (Option (List Char))
  | [] => some none
  | c :: rest =>
    if fracSep c = true ∧ allDigits rest = true ∧ 1 ≤ rest.length ∧ rest.length ≤ 9 then
      some (some rest)
    else none

/-- One greedy alternative for `(?P<second>\d{1,2})?`: exactly `k` digits of
second, then the subsecond section and the end anchor. -/
def tryBranchSec (k : Nat) (s : List Char) : Option (Option (List Char) × Option (List Char)) :=
  match takeDigits k s with
  | none => none
  | some dr =>
    match matchFracEnd dr.2 with
    | none => none
    | some f => some (some dr.1, f)

/-- `(?P<second>\d{1,2})?(?P<subsecondsection>..)?$`: seconds of length 2,
then 1, then absent. -/
def matchSecFrac (s : List Char) : Option (Option (List Char) × Option (List Char)) :=
  match tryBranchSec 2 s with
  | some x => some x
  | none =>
    match tryBranchSec 1 s with
    | some x => some x
    | none =>
      match matchFracEnd s with
      | some f => some (none, f)
      | none => none

/-- The mandatory `:` of the time pattern. -/
def expectColon (s : List Char) : Option (List Char) :=
  match s with
  | c :: r => if c = ':' then some r else none
  | [] => none

/-- One greedy alternative for `(?P<minute>\d{1,2})?`: exactly `k` digits of
minute, then the mandatory `:`, then seconds and subseconds. -/
def tryBranchMin (k : Nat) (s : List Char) :
    Option (Option (List Char) × Option (List Char) × Option (List Char)) :=
  match takeDigits k s with
  | none => none
  | some dr =>
    match expectColon dr.2 with
    | none => none
    | some r2 => (matchSecFrac r2).map (fun p => (some dr.1, p.1, p.2))

/-- `(?P<minute>\d{1,2})?:(?P<second>..)?..$`: minutes of length 2, then 1,
then absent — the second `:` stays mandatory in every alternative. -/
def matchMinSecFrac (s : List Char) :
    Option (Option (List Char) × Option (List Char) × Option (List Char)) :=
  match tryBranchMin 2 s with
  | some x => some x
  | none =>
    match tryBranchMin 1 s with
    | some x => some x
    | none =>
      match expectColon s with
      | none => none
      | some r2 => (matchSecFrac r2).map (fun p => (none, p.1, p.2))

/-- One greedy alternative for `(?P<hour>\d{1,2})`: exactly `k` digits of
hour, then the first mandatory `:`. -/
def tryBranchHour (k : Nat) (s : List Char) : Option TimeGroups :=
  match takeDigits k s with
  | none => none
  | some dr =>
    match expectColon dr.2 with
    | none => none
    | some r2 => (matchMinSecFrac r2).map (fun p => ⟨dr.1, p.1, p.2.1, p.2.2⟩)

/-- The time part of `COMMON` without its optional leading space, anchored at
the end of the input: `(?P<hour>\d{1,2}):(?P<minute>\d{1,2})?:(?P<second>\d{1,2})?
(?P<subsecondsection>(?:[.|,])(?P<subsecond>\d{1,9}))?$`. -/
def matchTimeFull (s : List Char) : Option TimeGroups :=
  match tryBranchHour 2 s with
  | some t => some t
  | none => tryBranchHour 1 s

/-- `(?P<time>(?P<timesep>\ )?...)?$`: either the input is exhausted (time
absent) or the rest — after an optional single space — is a full time part.
When the head is a space the space-consuming alternative is the only viable
one, since an hour digit can never match a space. -/
def matchTimeAtEnd (s : List Char) : Option (Option TimeGroups) :=
  match s with
  | [] => some none
  | c :: r =>
    if c = ' ' then (matchTimeFull r).map some
    else (matchTimeFull (c :: r)).map some

/-- `(?P<monthday>(?P<monthsep>[/:])?(?P<month>\d{2})((?P<daysep>[/:])?(?P<day>\d{2})))`:
in this pattern the day group is not optional inside `monthday`. -/
def matchMonthday (s : List Char) : Option ((List Char × List Char) × List Char) :=
  match takeDigits 2 (stripSep s) with
  | none => none
  | some mo =>
    match takeDigits 2 (stripSep mo.2) with
    | none => none
    | some d => some ((mo.1, d.1), d.2)

/-- The greedy date alternative with a `monthday` group present. -/
def tryDateMonthday (y : List Char) (r : List Char) : Option Groups :=
  match matchMonthday r with
  | none => none
  | some mdr =>
    (matchTimeAtEnd mdr.2).map (fun t => ⟨some ⟨y, some mdr.1⟩, t⟩)

/-- The anchored `COMMON` pattern on newline-free input, with the Python
backtracking order: date with `monthday`, then date as a bare year, then no
date at all. -/
def COMMONcore (s : List Char) : Option Groups :=
  match takeDigits 4 s with
  | none => (matchTimeAtEnd s).map (fun t => ⟨none, t⟩)
  | some yr =>
    match tryDateMonthday yr.1 yr.2 with
    | some g => some g
    | none =>
      match (matchTimeAtEnd yr.2).map (fun t => (⟨some ⟨yr.1, none⟩, t⟩ : Groups)) with
      | some g => some g
      | none => (matchTimeAtEnd s).map (fun t => ⟨none, t⟩)

/-- Python `$` also matches just before one final newline; no token of the
pattern can consume a newline, so dropping one trailing newline first is an
exact rendering. -/
def stripTrailingNewline (s : List Char) : List Char :=
  if s.getLast? = some '\n' then s.dropLast else s

/-- `COMMON.match(text)` (the pattern is anchored with `^ ... $`). -/
def COMMONmatch (s : List Char) : Option Groups :=
  COMMONcore (stripTrailingNewline s)

/-! ## `_parse_common` -/

/-- `int(digits)` on a `\d+` capture. -/
def digitsToNat (s : List Char) : Nat :=
  s.foldl (fun a c => a * 10 + (c.toNat - 48)) 0

/-- Lines 171–177 of the source: the subsecond capture is cut to its first six
characters and padded on the right with `0` to six characters
(via `str.format` with the fill-and-align spec `0<6`) before `int` is applied. -/
def subsecondMicro (ss : List Char) : Nat :=
  digitsToNat (ss.take 6 ++ List.replicate (6 - (ss.take 6).length) '0')

/-- Lines 154–159 of the source: the `(month, day)` assignment from the
`month`-position and `day`-position capture groups, controlled by
`day_first`. -/
def resolveMD (dayFirst : Bool) (md : List Char × List Char) : Nat × Nat :=
  if dayFirst then (digitsToNat md.2, digitsToNat md.1)
  else (digitsToNat md.1, digitsToNat md.2)

/-- Lines 143–182 of the source: what `_parse_common` does with the capture
groups of a successful `COMMON` match.  Note that when the time part matched
with an absent `minute` or `second` group, the source applies `int` to
`None`, a `TypeError`. -/
def commonBuild (day_first : Bool) (g : Groups) : Except PyError Parsed :=
  let hasDate := g.date.isSome
  let year : Nat := match g.date with
    | some dg => digitsToNat dg.year
    | none => 0
  let md : Nat × Nat := match g.date with
    | some dg =>
      (match dg.monthday with
       | some md => resolveMD day_first md
       | none => (1, 1))
    | none => (1, 1)
  match g.time with
  | none => mkDate year md.1 md.2
  | some t =>
    let hour := digitsToNat t.hour
    match t.minute with
    | none => .error (.typeError "int() argument must be a string, not NoneType")
    | some mi =>
      match t.second with
      | none => .error (.typeError "int() argument must be a string, not NoneType")
      | some se =>
        let microsecond : Nat := match t.subsecond with
          | none => 0
          | some ss => subsecondMicro ss
        if hasDate then
          mkDatetime year md.1 md.2 hour (digitsToNat mi) (digitsToNat se) microsecond
        else
          mkTime hour (digitsToNat mi) (digitsToNat se) microsecond

/-- `_parse_common(text, **options)`.  Only `the day_first option` is read. -/
def _parse_common (text : String) (day_first : Bool) : Except PyError Parsed :=
  match COMMONmatch text.data with
  | none => .error (.parserError "Invalid datetime string")
  | some g => commonBuild day_first g

/-! ## Options -/

/-- The reference instant (`datetime.now()` or the `now` option); only its
date fields are read by `_normalize`. -/
structure Instant where
  year : Nat
  month : Nat
  day : Nat
deriving DecidableEq, Repr

/-- The resolved option record, after the defaults have been merged. -/
structure Opts where
  day_first : Bool
  year_first : Bool
  strict : Bool
  exact : Bool
  now : Option Instant
deriving DecidableEq, Repr

/-- The values of `DEFAULT_OPTIONS` as a record. -/
def DEFAULT_OPTS : Opts := ⟨false, true, true, false, none⟩

/-! ## The dispatcher `_parse` -/

/-- The three strategies of the fallback chain. -/
inductive Strategy where
  | iso
  | common
  | fallback
deriving DecidableEq, Repr

/-- `_parse(text, **options)`, parameterized by the strict-format matcher
`iso` (`parse_iso8601`) and the external fallback `du`
(`dateutil.parser.parse(text, dayfirst=..., yearfirst=...)`).
`except ValueError: pass` around the strict matcher and
`except ParserError: pass` around the common matcher are rendered by the
error discriminations below; any other exception propagates. -/
def _parse (iso : String → Except PyError Parsed)
    (du : String → Bool → Bool → Except PyError Parsed)
    (text : String) (o : Opts) : Except PyError Parsed :=
  match iso text with
  | .ok v => .ok v
  | .error (.valueError _) =>
    (match _parse_common text o.day_first with
     | .ok v => .ok v
     | .error (.parserError _) =>
       if o.strict then .error (.parserError ("Unable to parse string [" ++ text ++ "]"))
       else
         match du text o.day_first o.year_first with
         | .ok dt => .ok dt
         | .error (.valueError _) => .error (.parserError ("Invalid date string: " ++ text))
         | .error e => .error e
     | .error e => .error e)
  | .error e => .error e

/-- The strategies `_parse` actually invokes, in invocation order (same case
scaffolding as `_parse`). -/
def _parseAttempts (iso : String → Except PyError Parsed)
    (_du : String → Bool → Bool → Except PyError Parsed)
    (text : String) (o : Opts) : List Strategy :=
  match iso text with
  | .ok _ => [Strategy.iso]
  | .error (.valueError _) =>
    (match _parse_common text o.day_first with
     | .error (.parserError _) =>
       if o.strict then [Strategy.iso, Strategy.common]
       else [Strategy.iso, Strategy.common, Strategy.fallback]
     | _ => [Strategy.iso, Strategy.common])
  | .error _ => [Strategy.iso]

/-! ## `_normalize` and `parse` -/

/-- `_normalize(parsed, **options)`; `wall` stands for the value
`datetime.now()` would produce during the call (the `now` option when set, `None` being the only falsy value it takes here). -/
def _normalize (wall : Instant) (o : Opts) (parsed : Parsed) : Except PyError Parsed :=
  if o.exact then .ok parsed
  else
    match parsed with
    | .time h mi s us =>
      let ref := o.now.getD wall
      mkDatetime ref.year ref.month ref.day h mi s us
    | .date y m d => mkDatetime y m d 0 0 0 0
    | .datetime y m d h mi s us => .ok (.datetime y m d h mi s us)

/-- `parse(text, **options)` with the options already resolved against the
defaults (the dictionary-level resolution is `resolveOptions` below): the
dispatcher result is fed to `_normalize`, and any exception of the dispatcher
propagates. -/
def parse (iso : String → Except PyError Parsed)
    (du : String → Bool → Bool → Except PyError Parsed)
    (wall : Instant) (text : String) (o : Opts) : Except PyError Parsed :=
  (_parse iso du text o).bind (fun p => _normalize wall o p)

/-! ## The option dictionary of `parse`

`parse` does `_options = copy.copy(DEFAULT_OPTIONS); _options.update(options)`:
the module-level dictionary is shallow-copied and the overrides are merged
into the copy, so a call never writes to the shared defaults. -/

/-- A value stored in the options dictionary. -/
inductive OptVal where
  | boolV (b : Bool)
  | noneVal
  | instV (i : Instant)
deriving DecidableEq, Repr

/-- A Python dictionary with string keys, as an insertion-ordered association
list. -/
abbrev OptDict := List (String × OptVal)

/-- The module-level `DEFAULT_OPTIONS` dictionary. -/
def DEFAULT_OPTIONS : OptDict :=
  [("day_first", .boolV false), ("year_first", .boolV true), ("strict", .boolV true),
   ("exact", .boolV false), ("now", .noneVal)]

/-- `d[k] = v`: replace in place, or append a fresh key. -/
def dictSet : OptDict → String → OptVal → OptDict
  | [], k, v => [(k, v)]
  | kv :: rest, k, v => if kv.1 = k then (k, v) :: rest else kv :: dictSet rest k v

/-- `d.update(u)`. -/
def dictUpdate (d u : OptDict) : OptDict :=
  u.foldl (fun acc kv => dictSet acc kv.1 kv.2) d

/-- One call of `parse` at the option-dictionary level: the first component is
the `_options` dictionary the call works with, the second is the module-level
dictionary as it stands after the call (`copy.copy` makes `update` write to
the copy, leaving the module state untouched). -/
def resolveOptions (moduleState : OptDict) (overrides : OptDict) : OptDict × OptDict :=
  (dictUpdate moduleState overrides, moduleState)

/-! ## The strict-format matcher, modelled from the specification -/

/-- Splits at the first date/time designator (`T`, or the space the
specification examples use). -/
def splitDateTimeSep : List Char → Option (List Char × List Char)
  | [] => none
  | c :: r =>
    if c = 'T' ∨ c = ' ' then some ([], r)
    else (splitDateTimeSep r).map (fun p => (c :: p.1, p.2))

/-- Date components of the standard format: `YYYY`, `YYYY-MM` or
`YYYY-MM-DD`, with the reduced-precision month/day defaulting to 1. -/
def isoDateComps (s : List Char) : Option (Nat × Nat × Nat) :=
  match takeDigits 4 s with
  | none => none
  | some yr =>
    match yr.2 with
    | [] => some (digitsToNat yr.1, 1, 1)
    | '-' :: r1 =>
      (match takeDigits 2 r1 with
       | none => none
       | some mo =>
         match mo.2 with
         | [] => some (digitsToNat yr.1, digitsToNat mo.1, 1)
         | '-' :: r2 =>
           (match takeDigits 2 r2 with
            | none => none
            | some d =>
              match d.2 with
              | [] => some (digitsToNat yr.1, digitsToNat mo.1, digitsToNat d.1)
              | _ => none)
         | _ => none)
    | _ => none

/-- Time components of the standard format: `HH:MM`, `HH:MM:SS` or
`HH:MM:SS` with a fractional part of one to nine digits after `.` or `,`,
the fraction being interpreted as microseconds (truncated to six digits,
padded on the right with zeros). -/
def isoTimeComps (s : List Char) : Option (Nat × Nat × Nat × Nat) :=
  match takeDigits 2 s with
  | none => none
  | some h =>
    match h.2 with
    | ':' :: r1 =>
      (match takeDigits 2 r1 with
       | none => none
       | some mi =>
         match mi.2 with
         | [] => some (digitsToNat h.1, digitsToNat mi.1, 0, 0)
         | ':' :: r2 =>
           (match takeDigits 2 r2 with
            | none => none
            | some se =>
              match se.2 with
              | [] => some (digitsToNat h.1, digitsToNat mi.1, digitsToNat se.1, 0)
              | c :: fr =>
                if (c = '.' ∨ c = ',') ∧ allDigits fr = true ∧ 1 ≤ fr.length ∧ fr.length ≤ 9 then
                  some (digitsToNat h.1, digitsToNat mi.1, digitsToNat se.1, subsecondMicro fr)
                else none)
         | _ => none)
    | _ => none

/-- Modelled from the spec: `parse_iso8601`, imported by the source from
`pendulum.parsing.iso8601` / `pendulum.parsing._iso8601`, a module that is
absent from the sources.  Spec 4.1: the matcher "recognizes the international
standard representation (full date, full date-time, date/time with fractional
seconds, and the variants with reduced precision — year-only, year-month,
etc.)", it "signals a no-match condition" when the text does not conform to
the grammar (a `ValueError` for the dispatcher to catch), and a
structurally-matched text with out-of-range fields fails in the
value-construction step (also a `ValueError`, per the `except ValueError`
the dispatcher wraps around this matcher). -/
def parse_iso8601 (text : String) : Except PyError Parsed :=
  match splitDateTimeSep text.data with
  | some dt =>
    (match isoDateComps dt.1, isoTimeComps dt.2 with
     | some d, some t => mkDatetime d.1 d.2.1 d.2.2 t.1 t.2.1 t.2.2.1 t.2.2.2
     | _, _ => .error (.valueError "Invalid ISO 8601 string"))
  | none =>
    match isoDateComps text.data with
    | some d => mkDate d.1 d.2.1 d.2.2
    | none =>
      match isoTimeComps text.data with
      | some t => mkTime t.1 t.2.1 t.2.2.1 t.2.2.2
      | none => .error (.valueError "Invalid ISO 8601 string")

/-! ## Stub collaborators for concrete instantiations -/

/-- A strict-format matcher that never matches (used to drive the dispatcher
into its later stages on concrete inputs). -/
def isoStubFail : String → Except PyError Parsed :=
  fun _ => .error (.valueError "Invalid ISO 8601 string")

/-- An external fallback adapter that always fails with the `ValueError` the
dispatcher expects of it. -/
def duStubFail : String → Bool → Bool → Except PyError Parsed :=
  fun _ _ _ => .error (.valueError "Unknown string format")

/-! ## Shape projections -/

/-- The month field of a parsed value (1, the source default, for a bare
time). -/
def monthOf : Parsed → Nat
  | .date _ m _ => m
  | .datetime _ m _ _ _ _ _ => m
  | .time _ _ _ _ => 1

/-- The day field of a parsed value (1 for a bare time). -/
def dayOf : Parsed → Nat
  | .date _ _ d => d
  | .datetime _ _ d _ _ _ _ => d
  | .time _ _ _ _ => 1

/-- The year field of a parsed value (0 for a bare time). -/
def yearOf : Parsed → Nat
  | .date y _ _ => y
  | .datetime y _ _ _ _ _ _ => y
  | .time _ _ _ _ => 0

/-! ## Shape predicates for the grammar claims -/

/-- Bounds of the `subsecond` capture group: one to nine digits. -/
def SubShape (o : Option (List Char)) : Prop :=
  ∀ d, o = some d → allDigits d = true ∧ 1 ≤ d.length ∧ d.length ≤ 9

/-- Shape of the text consumed by the subsecond section together with the end
anchor: empty, or a separator from `[.|,]` followed by one to nine digits. -/
def FrListShape (fr : List Char) : Prop :=
  fr = [] ∨ ∃ c d, fr = c :: d ∧ fracSep c = true ∧ allDigits d = true ∧
    1 ≤ d.length ∧ d.length ≤ 9

/-- The exact language of the time part of `COMMON` (without its optional
leading space): a 1–2 digit hour, a mandatory `:`, an optional 1–2 digit
minute, a second mandatory `:`, an optional 1–2 digit second, and an optional
fractional suffix introduced by `.`, `|` or `,` with 1–9 digits. -/
def TimeSegShape (s : List Char) : Prop :=
  ∃ h m2 se fr, s = h ++ ':' :: (m2 ++ ':' :: (se ++ fr)) ∧
    allDigits h = true ∧ 1 ≤ h.length ∧ h.length ≤ 2 ∧
    allDigits m2 = true ∧ m2.length ≤ 2 ∧
    allDigits se = true ∧ se.length ≤ 2 ∧
    FrListShape fr

/-! ## Helper lemmas -/

theorem checkDate_error {y m d : Nat} {e : PyError} (h : checkDate y m d = some e) :
    ∃ s, e = PyError.valueError s := by
  unfold checkDate at h
  split_ifs at h <;> exact ⟨_, (Option.some.inj h).symm⟩

theorem checkTime_error {h mi s us : Nat} {e : PyError} (hh : checkTime h mi s us = some e) :
    ∃ t, e = PyError.valueError t := by
  unfold checkTime at hh
  split_ifs at hh <;> exact ⟨_, (Option.some.inj hh).symm⟩

theorem mkDate_ok {y m d : Nat} {v : Parsed} (h : mkDate y m d = Except.ok v) :
    v = Parsed.date y m d := by
  unfold mkDate at h
  cases hc : checkDate y m d with
  | some e => rw [hc] at h; exact Except.noConfusion h
  | none => rw [hc] at h; exact (Except.ok.inj h).symm

theorem mkDate_error {y m d : Nat} {e : PyError} (h : mkDate y m d = Except.error e) :
    ∃ s, e = PyError.valueError s := by
  unfold mkDate at h
  cases hc : checkDate y m d with
  | some e2 =>
    rw [hc] at h
    exact (Except.error.inj h) ▸ checkDate_error hc
  | none => rw [hc] at h; exact Except.noConfusion h

theorem mkTime_error {h mi s us : Nat} {e : PyError} (hh : mkTime h mi s us = Except.error e) :
    ∃ t, e = PyError.valueError t := by
  unfold mkTime at hh
  cases hc : checkTime h mi s us with
  | some e2 =>
    rw [hc] at hh
    exact (Except.error.inj hh) ▸ checkTime_error hc
  | none => rw [hc] at hh; exact Except.noConfusion hh

theorem mkDatetime_ok {y m d h mi s us : Nat} {v : Parsed}
    (hv : mkDatetime y m d h mi s us = Except.ok v) :
    v = Parsed.datetime y m d h mi s us := by
  unfold mkDatetime at hv
  cases hcd : checkDate y m d with
  | some e => rw [hcd] at hv; exact Except.noConfusion hv
  | none =>
    rw [hcd] at hv
    cases hct : checkTime h mi s us with
    | some e => rw [hct] at hv; exact Except.noConfusion hv
    | none => rw [hct] at hv; exact (Except.ok.inj hv).symm

theorem mkDatetime_error {y m d h mi s us : Nat} {e : PyError}
    (hv : mkDatetime y m d h mi s us = Except.error e) :
    ∃ t, e = PyError.valueError t := by
  unfold mkDatetime at hv
  cases hcd : checkDate y m d with
  | some e2 =>
    rw [hcd] at hv
    exact (Except.error.inj hv) ▸ checkDate_error hcd
  | none =>
    rw [hcd] at hv
    cases hct : checkTime h mi s us with
    | some e2 =>
      rw [hct] at hv
      exact (Except.error.inj hv) ▸ checkTime_error hct
    | none => rw [hct] at hv; exact Except.noConfusion hv

theorem mkDatetime_of_checks {y m d h mi s us : Nat}
    (hcd : checkDate y m d = none) (hct : checkTime h mi s us = none) :
    mkDatetime y m d h mi s us = Except.ok (Parsed.datetime y m d h mi s us) := by
  unfold mkDatetime
  rw [hcd, hct]

/-! ## C10: option resolution never mutates the shared defaults -/

theorem foldl_resolveOptions (calls : List OptDict) (st : OptDict) :
    calls.foldl (fun st ov => (resolveOptions st ov).2) st = st := by
  induction calls generalizing st with
  | nil => rfl
  | cons c rest ih => exact ih st

/-- C10: every call resolves its options on a copy of the shared defaults, so
after any sequence of calls with arbitrary overrides the module-level
`DEFAULT_OPTIONS` is unchanged, and a call supplying no overrides resolves to
`day_first=false`, `year_first=true`, `strict=true`, `exact=false` and no
reference instant. -/
theorem c10_no_option_leakage (calls : List OptDict) :
    calls.foldl (fun st ov => (resolveOptions st ov).2) DEFAULT_OPTIONS = DEFAULT_OPTIONS
    ∧ ((resolveOptions
          (calls.foldl (fun st ov => (resolveOptions st ov).2) DEFAULT_OPTIONS) []).1.lookup
        "day_first" = some (OptVal.boolV false)
      ∧ (resolveOptions
          (calls.foldl (fun st ov => (resolveOptions st ov).2) DEFAULT_OPTIONS) []).1.lookup
        "year_first" = some (OptVal.boolV true)
      ∧ (resolveOptions
          (calls.foldl (fun st ov => (resolveOptions st ov).2) DEFAULT_OPTIONS) []).1.lookup
        "strict" = some (OptVal.boolV true)
      ∧ (resolveOptions
          (calls.foldl (fun st ov => (resolveOptions st ov).2) DEFAULT_OPTIONS) []).1.lookup
        "exact" = some (OptVal.boolV false)
      ∧ (resolveOptions
          (calls.foldl (fun st ov => (resolveOptions st ov).2) DEFAULT_OPTIONS) []).1.lookup
        "now" = some OptVal.noneVal) := by
  rw [foldl_resolveOptions]
  exact ⟨rfl, rfl, rfl, rfl, rfl, rfl⟩

/-! ## C9: the normalizer is idempotent -/

theorem except_ok_bind (a : Parsed) (f : Parsed → Except PyError Parsed) :
    (Except.ok a).bind f = f a := rfl

theorem except_error_bind (e : PyError) (f : Parsed → Except PyError Parsed) :
    (Except.error e).bind f = Except.error e := rfl

theorem normalize_datetime (wall : Instant) (o : Opts) (y m d h mi s us : Nat) :
    _normalize wall o (Parsed.datetime y m d h mi s us)
      = Except.ok (Parsed.datetime y m d h mi s us) := by
  unfold _normalize
  split <;> rfl

/-- C9: for every parsed value, every option record and every fixed resolved
reference instant, normalizing twice equals normalizing once (in particular,
normalizing a full date-time is a no-op). -/
theorem c9_normalize_idempotent (wall : Instant) (o : Opts) (p : Parsed) :
    (_normalize wall o p).bind (_normalize wall o) = _normalize wall o p := by
  cases he : o.exact with
  | true =>
    have h1 : _normalize wall o p = Except.ok p := by
      simp only [_normalize, he, if_true]
    rw [h1, except_ok_bind, h1]
  | false =>
    cases p with
    | time h mi s us =>
      have h1 : _normalize wall o (Parsed.time h mi s us)
          = mkDatetime (o.now.getD wall).year (o.now.getD wall).month (o.now.getD wall).day
              h mi s us := by
        simp only [_normalize, he, Bool.false_eq_true, if_false]
      rw [h1]
      cases hm : mkDatetime (o.now.getD wall).year (o.now.getD wall).month (o.now.getD wall).day
          h mi s us with
      | error e => rw [except_error_bind]
      | ok v =>
        rw [except_ok_bind]
        have hv := mkDatetime_ok hm
        subst hv
        exact normalize_datetime wall o _ _ _ _ _ _ _
    | date y m d =>
      have h1 : _normalize wall o (Parsed.date y m d) = mkDatetime y m d 0 0 0 0 := by
        simp only [_normalize, he, Bool.false_eq_true, if_false]
      rw [h1]
      cases hm : mkDatetime y m d 0 0 0 0 with
      | error e => rw [except_error_bind]
      | ok v =>
        rw [except_ok_bind]
        have hv := mkDatetime_ok hm
        subst hv
        exact normalize_datetime wall o _ _ _ _ _ _ _
    | datetime y m d h mi s us =>
      rw [normalize_datetime, except_ok_bind, normalize_datetime]

/-! ## C6: what the normalizer does to each shape -/

/-- C6: with `exact=false` the normalizer turns a bare time into a date-time
whose date fields come from the resolved reference instant (the `now` option
if supplied, the wall clock otherwise) and whose time fields are preserved;
turns a bare date into a date-time with zero time fields; and leaves a full
date-time unchanged.  With `exact=true` it returns any shape untouched. -/
theorem c6_normalizer (wall : Instant) (o : Opts) (he : o.exact = false) :
    (∀ h mi s us,
        checkDate (o.now.getD wall).year (o.now.getD wall).month (o.now.getD wall).day = none →
        checkTime h mi s us = none →
        _normalize wall o (Parsed.time h mi s us)
          = Except.ok (Parsed.datetime (o.now.getD wall).year (o.now.getD wall).month
              (o.now.getD wall).day h mi s us))
    ∧ (∀ y m d, checkDate y m d = none →
        _normalize wall o (Parsed.date y m d) = Except.ok (Parsed.datetime y m d 0 0 0 0))
    ∧ (∀ y m d h mi s us,
        _normalize wall o (Parsed.datetime y m d h mi s us)
          = Except.ok (Parsed.datetime y m d h mi s us))
    ∧ (∀ p, _normalize wall (Opts.mk o.day_first o.year_first o.strict true o.now) p
          = Except.ok p) := by
  refine ⟨?_, ?_, ?_, ?_⟩
  · intro h mi s us hcd hct
    simp only [_normalize, he, Bool.false_eq_true, if_false]
    exact mkDatetime_of_checks hcd hct
  · intro y m d hcd
    simp only [_normalize, he, Bool.false_eq_true, if_false]
    exact mkDatetime_of_checks hcd rfl
  · intro y m d h mi s us
    simp only [_normalize, he, Bool.false_eq_true, if_false]
  · intro p
    simp only [_normalize, if_true]

theorem c6_witness :
    _normalize ⟨2021, 1, 1⟩ DEFAULT_OPTS (Parsed.time 12 30 0 0)
      = Except.ok (Parsed.datetime 2021 1 1 12 30 0 0)
    ∧ _normalize ⟨2021, 1, 1⟩ DEFAULT_OPTS (Parsed.date 2016 6 5)
      = Except.ok (Parsed.datetime 2016 6 5 0 0 0 0)
    ∧ _normalize ⟨2021, 1, 1⟩ DEFAULT_OPTS (Parsed.datetime 2016 6 5 12 30 45 0)
      = Except.ok (Parsed.datetime 2016 6 5 12 30 45 0)
    ∧ _normalize ⟨2021, 1, 1⟩ (Opts.mk false true true true none) (Parsed.time 12 30 0 0)
      = Except.ok (Parsed.time 12 30 0 0) := by
  have h := c6_normalizer ⟨2021, 1, 1⟩ DEFAULT_OPTS rfl
  exact ⟨h.1 12 30 0 0 rfl rfl, h.2.1 2016 6 5 rfl, h.2.2.1 2016 6 5 12 30 45 0,
    h.2.2.2 (Parsed.time 12 30 0 0)⟩

/-! ## C3: what the common matcher does when no segment is present -/

/-- C3 (amended): when the `COMMON` pattern does not match at all,
`_parse_common` raises the internal no-match `ParserError`; but the pattern
does match an input with neither a date nor a time segment (the empty string
is the one such input), and there the source reaches `date(0, 1, 1)` and
raises a `ValueError` (year 0 out of range) instead of the no-match
signal. -/
theorem c3_amended (text : String) (df : Bool) :
    (COMMONmatch text.data = none →
      _parse_common text df = Except.error (PyError.parserError "Invalid datetime string"))
    ∧ _parse_common "" df = Except.error (PyError.valueError "year 0 is out of range") := by
  constructor
  · intro h
    unfold _parse_common
    rw [h]
  · rfl

theorem c3_witness :
    _parse_common "not a date" false
      = Except.error (PyError.parserError "Invalid datetime string")
    ∧ _parse_common "" true
      = Except.error (PyError.valueError "year 0 is out of range") :=
  ⟨(c3_amended "not a date" false).1 rfl, (c3_amended "" true).2⟩

theorem c3_counterexample :
    _parse_common "" false = Except.error (PyError.valueError "year 0 is out of range")
    ∧ ∀ m, _parse_common "" false ≠ Except.error (PyError.parserError m) := by
  refine ⟨rfl, ?_⟩
  intro m h
  have h2 : (Except.error (PyError.valueError "year 0 is out of range") : Except PyError Parsed)
      = Except.error (PyError.parserError m) := h
  exact PyError.noConfusion (Except.error.inj h2)

/-! ## C1: the fallback chain of the dispatcher -/

/-- C1: the dispatcher always attempts the strict matcher first and
short-circuits on its success; the common matcher is attempted exactly when
the strict matcher failed with the `ValueError` the dispatcher catches, and
short-circuits on its success; the fallback adapter is attempted exactly when
both grammars failed (the common one with its no-match `ParserError`) and
`strict` is false; with `strict` true and both grammars failing, the
dispatcher raises the terminal `ParserError` carrying the input, without
invoking the fallback adapter. -/
theorem c1_dispatch_order (iso : String → Except PyError Parsed)
    (du : String → Bool → Bool → Except PyError Parsed) (text : String) (o : Opts) :
    ((_parseAttempts iso du text o).head? = some Strategy.iso)
    ∧ (∀ v, iso text = Except.ok v →
        _parse iso du text o = Except.ok v ∧ _parseAttempts iso du text o = [Strategy.iso])
    ∧ (Strategy.common ∈ _parseAttempts iso du text o ↔
        ∃ m, iso text = Except.error (PyError.valueError m))
    ∧ (∀ v, Strategy.common ∈ _parseAttempts iso du text o →
        _parse_common text o.day_first = Except.ok v →
        _parse iso du text o = Except.ok v
        ∧ _parseAttempts iso du text o = [Strategy.iso, Strategy.common])
    ∧ (Strategy.fallback ∈ _parseAttempts iso du text o ↔
        (o.strict = false ∧ (∃ m, iso text = Except.error (PyError.valueError m))
          ∧ ∃ m, _parse_common text o.day_first = Except.error (PyError.parserError m)))
    ∧ (o.strict = true →
        (∃ m, iso text = Except.error (PyError.valueError m)) →
        (∃ m, _parse_common text o.day_first = Except.error (PyError.parserError m)) →
        _parse iso du text o
          = Except.error (PyError.parserError ("Unable to parse string [" ++ text ++ "]"))
        ∧ Strategy.fallback ∉ _parseAttempts iso du text o) := by
  rcases hi : iso text with (m | m | m) | v
  · simp [_parse, _parseAttempts, hi]
  · rcases hc : _parse_common text o.day_first with (m2 | m2 | m2) | v
    · cases hs : o.strict
      · simp [_parse, _parseAttempts, hi, hc, hs]
      · simp [_parse, _parseAttempts, hi, hc, hs]
    · simp [_parse, _parseAttempts, hi, hc]
    · simp [_parse, _parseAttempts, hi, hc]
    · simp [_parse, _parseAttempts, hi, hc]
  · simp [_parse, _parseAttempts, hi]
  · simp [_parse, _parseAttempts, hi]

theorem c1_witness :
    (_parse isoStubFail duStubFail "not a date" DEFAULT_OPTS
      = Except.error (PyError.parserError "Unable to parse string [not a date]"))
    ∧ Strategy.fallback ∉ _parseAttempts isoStubFail duStubFail "not a date" DEFAULT_OPTS := by
  have h := c1_dispatch_order isoStubFail duStubFail "not a date" DEFAULT_OPTS
  exact h.2.2.2.2.2 rfl ⟨"Invalid ISO 8601 string", rfl⟩ ⟨"Invalid datetime string", rfl⟩

/-! ## C4: invalid-value failures and the fallback chain -/

/-- C4 (amended): a `ValueError` raised by the common-format stage for a
structurally matched but out-of-range input surfaces immediately — the
dispatcher result is that very error and the fallback adapter is not
attempted; but in the strict stage an invalid-value failure is
indistinguishable from a no-match (both are the `ValueError` the dispatcher
catches), so the input is retried against the common-format matcher. -/
theorem c4_amended (iso : String → Except PyError Parsed)
    (du : String → Bool → Bool → Except PyError Parsed) (text : String) (o : Opts)
    (m : String) (hiso : iso text = Except.error (PyError.valueError m)) :
    Strategy.common ∈ _parseAttempts iso du text o
    ∧ ∀ m2, _parse_common text o.day_first = Except.error (PyError.valueError m2) →
        _parse iso du text o = Except.error (PyError.valueError m2)
        ∧ Strategy.fallback ∉ _parseAttempts iso du text o := by
  rcases hc : _parse_common text o.day_first with (m2 | m2 | m2) | v
  · constructor
    · cases hs : o.strict <;> simp [_parseAttempts, hiso, hc, hs]
    · intro m3 hm3
      exact absurd (Except.error.inj hm3) (fun hh => PyError.noConfusion hh)
  · constructor
    · simp [_parseAttempts, hiso, hc]
    · intro m3 hm3
      have hm5 : m2 = m3 := PyError.valueError.inj (Except.error.inj hm3)
      subst hm5
      constructor
      · simp [_parse, hiso, hc]
      · simp [_parseAttempts, hiso, hc]
  · constructor
    · simp [_parseAttempts, hiso, hc]
    · intro m3 hm3
      exact absurd (Except.error.inj hm3) (fun hh => PyError.noConfusion hh)
  · constructor
    · simp [_parseAttempts, hiso, hc]
    · intro m2 hm2
      exact Except.noConfusion hm2

theorem c4_witness :
    Strategy.common ∈ _parseAttempts parse_iso8601 duStubFail "2016:13:05" DEFAULT_OPTS
    ∧ _parse parse_iso8601 duStubFail "2016:13:05" DEFAULT_OPTS
        = Except.error (PyError.valueError "month must be in 1..12")
    ∧ Strategy.fallback ∉ _parseAttempts parse_iso8601 duStubFail "2016:13:05" DEFAULT_OPTS := by
  have h := c4_amended parse_iso8601 duStubFail "2016:13:05" DEFAULT_OPTS
    "Invalid ISO 8601 string" rfl
  have h2 := h.2 "month must be in 1..12" rfl
  exact ⟨h.1, h2.1, h2.2⟩

/-- C4 counterexample: `"2016-13-05"` structurally matches the strict
grammar but has month 13; the strict stage fails with the invalid-value
`ValueError`, and the dispatcher nevertheless retries the input against the
common-format matcher (the attempt list contains the common strategy),
contradicting "surfaced immediately … not retried against the remaining
strategies". -/
theorem c4_counterexample :
    parse_iso8601 "2016-13-05" = Except.error (PyError.valueError "month must be in 1..12")
    ∧ Strategy.common ∈ _parseAttempts parse_iso8601 duStubFail "2016-13-05" DEFAULT_OPTS := by
  constructor
  · rfl
  · have h : _parseAttempts parse_iso8601 duStubFail "2016-13-05" DEFAULT_OPTS
        = [Strategy.iso, Strategy.common] := rfl
    rw [h]
    simp

/-! ## C5: what escapes a `parse` call -/

theorem _normalize_error {wall : Instant} {o : Opts} {p : Parsed} {e : PyError}
    (h : _normalize wall o p = Except.error e) : ∃ m, e = PyError.valueError m := by
  unfold _normalize at h
  split at h
  · exact Except.noConfusion h
  · split at h
    · exact mkDatetime_error h
    · exact mkDatetime_error h
    · exact Except.noConfusion h

theorem parse_iso8601_error {t : String} {e : PyError}
    (h : parse_iso8601 t = Except.error e) : ∃ m, e = PyError.valueError m := by
  unfold parse_iso8601 at h
  split at h
  · split at h
    · exact mkDatetime_error h
    · exact ⟨_, (Except.error.inj h).symm⟩
  · split at h
    · exact mkDate_error h
    · split at h
      · exact mkTime_error h
      · exact ⟨_, (Except.error.inj h).symm⟩

/-- C5 (amended): with the fallback adapter failing only with the `ValueError`
the dispatcher expects of it, a `parse` call either yields one value, or the
terminal `ParserError` carrying the original input text, or propagates the
`ValueError` (out-of-range field) or `TypeError` (absent minute or second
group passed to `int`) of a structurally matched input — those two escape the
call without being converted to the terminal error. -/
theorem c5_amended (du : String → Bool → Bool → Except PyError Parsed)
    (wall : Instant) (text : String) (o : Opts)
    (hdu : ∀ t a b e, du t a b = Except.error e → ∃ m, e = PyError.valueError m) :
    (∃ v, parse parse_iso8601 du wall text o = Except.ok v)
    ∨ parse parse_iso8601 du wall text o
        = Except.error (PyError.parserError ("Unable to parse string [" ++ text ++ "]"))
    ∨ parse parse_iso8601 du wall text o
        = Except.error (PyError.parserError ("Invalid date string: " ++ text))
    ∨ (∃ m, parse parse_iso8601 du wall text o = Except.error (PyError.valueError m))
    ∨ (∃ m, parse parse_iso8601 du wall text o = Except.error (PyError.typeError m)) := by
  have hnorm : ∀ v : Parsed,
      (∃ w, _normalize wall o v = Except.ok w)
      ∨ ∃ m, _normalize wall o v = Except.error (PyError.valueError m) := by
    intro v
    cases hn : _normalize wall o v with
    | ok w => exact Or.inl ⟨w, rfl⟩
    | error e =>
      rcases _normalize_error hn with ⟨m, rfl⟩
      exact Or.inr ⟨m, rfl⟩
  unfold parse
  rcases hi : parse_iso8601 text with e | v
  · rcases parse_iso8601_error hi with ⟨mi, rfl⟩
    rcases hc : _parse_common text o.day_first with (m2 | m2 | m2) | v
    · cases hs : o.strict
      · rcases hdue : du text o.day_first o.year_first with e3 | v
        · rcases hdu _ _ _ _ hdue with ⟨m3, rfl⟩
          have hp : _parse parse_iso8601 du text o
              = Except.error (PyError.parserError ("Invalid date string: " ++ text)) := by
            simp [_parse, hi, hc, hs, hdue]
          rw [hp, except_error_bind]
          exact Or.inr (Or.inr (Or.inl rfl))
        · have hp : _parse parse_iso8601 du text o = Except.ok v := by
            simp [_parse, hi, hc, hs, hdue]
          rw [hp, except_ok_bind]
          rcases hnorm v with ⟨w, hw⟩ | ⟨m, hm⟩
          · exact Or.inl ⟨w, hw⟩
          · exact Or.inr (Or.inr (Or.inr (Or.inl ⟨m, hm⟩)))
      · have hp : _parse parse_iso8601 du text o
            = Except.error (PyError.parserError ("Unable to parse string [" ++ text ++ "]")) := by
          simp [_parse, hi, hc, hs]
        rw [hp, except_error_bind]
        exact Or.inr (Or.inl rfl)
    · have hp : _parse parse_iso8601 du text o
          = Except.error (PyError.valueError m2) := by
        simp [_parse, hi, hc]
      rw [hp, except_error_bind]
      exact Or.inr (Or.inr (Or.inr (Or.inl ⟨m2, rfl⟩)))
    · have hp : _parse parse_iso8601 du text o
          = Except.error (PyError.typeError m2) := by
        simp [_parse, hi, hc]
      rw [hp, except_error_bind]
      exact Or.inr (Or.inr (Or.inr (Or.inr ⟨m2, rfl⟩)))
    · have hp : _parse parse_iso8601 du text o = Except.ok v := by
        simp [_parse, hi, hc]
      rw [hp, except_ok_bind]
      rcases hnorm v with ⟨w, hw⟩ | ⟨m, hm⟩
      · exact Or.inl ⟨w, hw⟩
      · exact Or.inr (Or.inr (Or.inr (Or.inl ⟨m, hm⟩)))
  · have hp : _parse parse_iso8601 du text o = Except.ok v := by
      simp [_parse, hi]
    rw [hp, except_ok_bind]
    rcases hnorm v with ⟨w, hw⟩ | ⟨m, hm⟩
    · exact Or.inl ⟨w, hw⟩
    · exact Or.inr (Or.inr (Or.inr (Or.inl ⟨m, hm⟩)))

theorem c5_witness :
    (∃ v, parse parse_iso8601 duStubFail ⟨2021, 1, 1⟩ "2016" DEFAULT_OPTS = Except.ok v)
    ∨ parse parse_iso8601 duStubFail ⟨2021, 1, 1⟩ "2016" DEFAULT_OPTS
        = Except.error (PyError.parserError "Unable to parse string [2016]")
    ∨ parse parse_iso8601 duStubFail ⟨2021, 1, 1⟩ "2016" DEFAULT_OPTS
        = Except.error (PyError.parserError "Invalid date string: 2016")
    ∨ (∃ m, parse parse_iso8601 duStubFail ⟨2021, 1, 1⟩ "2016" DEFAULT_OPTS
        = Except.error (PyError.valueError m))
    ∨ (∃ m, parse parse_iso8601 duStubFail ⟨2021, 1, 1⟩ "2016" DEFAULT_OPTS
        = Except.error (PyError.typeError m)) :=
  c5_amended duStubFail ⟨2021, 1, 1⟩ "2016" DEFAULT_OPTS
    (fun _ _ _ _ h => ⟨"Unknown string format", (Except.error.inj h).symm⟩)

/-- C5 counterexample: on the empty string both grammars are passed, the
common one reaches `date(0, 1, 1)`, and the resulting `ValueError` — which
carries no input text — escapes the public `parse` call; the claim that only
a `ParserError` with the input attached can escape is false. -/
theorem c5_counterexample :
    parse parse_iso8601 duStubFail ⟨2021, 1, 1⟩ "" DEFAULT_OPTS
      = Except.error (PyError.valueError "year 0 is out of range")
    ∧ ∀ m, parse parse_iso8601 duStubFail ⟨2021, 1, 1⟩ "" DEFAULT_OPTS
        ≠ Except.error (PyError.parserError m) := by
  refine ⟨rfl, ?_⟩
  intro m h
  have h2 : (Except.error (PyError.valueError "year 0 is out of range") : Except PyError Parsed)
      = Except.error (PyError.parserError m) := h
  exact PyError.noConfusion (Except.error.inj h2)

/-! ## Soundness and completeness of the time-part matcher -/

theorem takeDigits_sound {k : Nat} {s : List Char} {dr : List Char × List Char}
    (h : takeDigits k s = some dr) :
    s = dr.1 ++ dr.2 ∧ allDigits dr.1 = true ∧ dr.1.length = k := by
  induction k generalizing s dr with
  | zero =>
    simp only [takeDigits, Option.some.injEq] at h
    subst h
    exact ⟨rfl, rfl, rfl⟩
  | succ k ih =>
    cases s with
    | nil =>
      simp only [takeDigits] at h
      exact Option.noConfusion h
    | cons c cs =>
      simp only [takeDigits] at h
      by_cases hc : c.isDigit
      · rw [if_pos hc] at h
        cases hk : takeDigits k cs with
        | none => rw [hk] at h; simp at h
        | some dr2 =>
          rw [hk] at h
          simp only [Option.map_some', Option.some.injEq] at h
          subst h
          obtain ⟨h1, h2, h3⟩ := ih hk
          refine ⟨by simp [h1], ?_, by simp [h3]⟩
          simp only [allDigits, List.all_cons, Bool.and_eq_true]
          exact ⟨hc, h2⟩
      · rw [if_neg hc] at h
        exact Option.noConfusion h

theorem takeDigits_append : ∀ (d : List Char), allDigits d = true →
    ∀ r, takeDigits d.length (d ++ r) = some (d, r) := by
  intro d
  induction d with
  | nil => intro _ r; rfl
  | cons c cs ih =>
    intro hd r
    have hsplit : c.isDigit = true ∧ allDigits cs = true := by
      simpa [allDigits] using hd
    show takeDigits (cs.length + 1) (c :: (cs ++ r)) = some (c :: cs, r)
    simp only [takeDigits, hsplit.1, if_true]
    rw [ih hsplit.2 r]
    rfl

theorem expectColon_sound {s r : List Char} (h : expectColon s = some r) :
    s = ':' :: r := by
  cases s with
  | nil => exact Option.noConfusion h
  | cons c cs =>
    simp only [expectColon] at h
    by_cases hc : c = ':'
    · rw [if_pos hc] at h
      rw [hc, Option.some.inj h]
    · rw [if_neg hc] at h
      exact Option.noConfusion h

theorem expectColon_cons (r : List Char) : expectColon (':' :: r) = some r := by
  simp [expectColon]

theorem matchFracEnd_sound {s : List Char} {f : Option (List Char)}
    (h : matchFracEnd s = some f) : FrListShape s ∧ SubShape f := by
  cases s with
  | nil =>
    simp only [matchFracEnd, Option.some.injEq] at h
    subst h
    exact ⟨Or.inl rfl, fun d hd => Option.noConfusion hd⟩
  | cons c rest =>
    simp only [matchFracEnd] at h
    split_ifs at h with hcond
    · have hf : f = some rest := (Option.some.inj h).symm
      subst hf
      refine ⟨Or.inr ⟨c, rest, rfl, hcond.1, hcond.2.1, hcond.2.2.1, hcond.2.2.2⟩, ?_⟩
      intro d hd
      have hrd : rest = d := Option.some.inj hd
      subst hrd
      exact ⟨hcond.2.1, hcond.2.2.1, hcond.2.2.2⟩

theorem matchFracEnd_complete {fr : List Char} (h : FrListShape fr) :
    ∃ f, matchFracEnd fr = some f := by
  rcases h with rfl | ⟨c, d, rfl, hsep, hdig, h1, h9⟩
  · exact ⟨none, rfl⟩
  · refine ⟨some d, ?_⟩
    simp only [matchFracEnd]
    rw [if_pos ⟨hsep, hdig, h1, h9⟩]

theorem tryBranchSec_sound {k : Nat} {s : List Char}
    {p : Option (List Char) × Option (List Char)} (h : tryBranchSec k s = some p) :
    ∃ se fr, s = se ++ fr ∧ allDigits se = true ∧ se.length = k ∧ FrListShape fr
      ∧ p.1 = some se ∧ SubShape p.2 := by
  unfold tryBranchSec at h
  cases hk : takeDigits k s with
  | none => rw [hk] at h; exact Option.noConfusion h
  | some dr =>
    simp only [hk] at h
    cases hf : matchFracEnd dr.2 with
    | none => rw [hf] at h; exact Option.noConfusion h
    | some f =>
      simp only [hf, Option.some.injEq] at h
      subst h
      obtain ⟨h1, h2, h3⟩ := takeDigits_sound hk
      obtain ⟨h4, h5⟩ := matchFracEnd_sound hf
      exact ⟨dr.1, dr.2, h1, h2, h3, h4, rfl, h5⟩

theorem tryBranchSec_of (k : Nat) {se fr : List Char} (hse : allDigits se = true)
    (hk : se.length = k) {f : Option (List Char)} (hf : matchFracEnd fr = some f) :
    tryBranchSec k (se ++ fr) = some (some se, f) := by
  unfold tryBranchSec
  rw [← hk, takeDigits_append se hse fr]
  simp only [hf]

theorem matchSecFrac_cascade {s : List Char}
    (h : (∃ x, tryBranchSec 2 s = some x) ∨ (∃ x, tryBranchSec 1 s = some x)
      ∨ ∃ f, matchFracEnd s = some f) :
    ∃ p, matchSecFrac s = some p := by
  unfold matchSecFrac
  cases h2 : tryBranchSec 2 s with
  | some x => exact ⟨x, rfl⟩
  | none =>
    cases h1 : tryBranchSec 1 s with
    | some x => exact ⟨x, rfl⟩
    | none =>
      cases h0 : matchFracEnd s with
      | some f => exact ⟨(none, f), rfl⟩
      | none =>
        rcases h with ⟨x, hx⟩ | ⟨x, hx⟩ | ⟨f, hf⟩
        · rw [h2] at hx; exact Option.noConfusion hx
        · rw [h1] at hx; exact Option.noConfusion hx
        · rw [h0] at hf; exact Option.noConfusion hf

theorem matchSecFrac_sound {s : List Char}
    {p : Option (List Char) × Option (List Char)} (h : matchSecFrac s = some p) :
    (∃ se fr, s = se ++ fr ∧ allDigits se = true ∧ se.length ≤ 2 ∧ FrListShape fr)
    ∧ SubShape p.2 := by
  unfold matchSecFrac at h
  cases h2 : tryBranchSec 2 s with
  | some x =>
    simp only [h2, Option.some.injEq] at h
    subst h
    obtain ⟨se, fr, hs, hd, hl, hfr, hp1, hp2⟩ := tryBranchSec_sound h2
    exact ⟨⟨se, fr, hs, hd, by omega, hfr⟩, hp2⟩
  | none =>
    simp only [h2] at h
    cases h1 : tryBranchSec 1 s with
    | some x =>
      simp only [h1, Option.some.injEq] at h
      subst h
      obtain ⟨se, fr, hs, hd, hl, hfr, hp1, hp2⟩ := tryBranchSec_sound h1
      exact ⟨⟨se, fr, hs, hd, by omega, hfr⟩, hp2⟩
    | none =>
      simp only [h1] at h
      cases h0 : matchFracEnd s with
      | some f =>
        simp only [h0, Option.some.injEq] at h
        subst h
        obtain ⟨hfr, hsub⟩ := matchFracEnd_sound h0
        exact ⟨⟨[], s, rfl, rfl, by simp, hfr⟩, hsub⟩
      | none =>
        rw [h0] at h
        exact Option.noConfusion h

theorem matchSecFrac_complete {se fr : List Char} (hse : allDigits se = true)
    (hlen : se.length ≤ 2) (hfr : FrListShape fr) :
    ∃ p, matchSecFrac (se ++ fr) = some p := by
  obtain ⟨f, hf⟩ := matchFracEnd_complete hfr
  apply matchSecFrac_cascade
  rcases se with _ | ⟨a, _ | ⟨b, _ | ⟨c, rest⟩⟩⟩
  · exact Or.inr (Or.inr ⟨f, hf⟩)
  · exact Or.inr (Or.inl ⟨_, tryBranchSec_of 1 hse rfl hf⟩)
  · exact Or.inl ⟨_, tryBranchSec_of 2 hse rfl hf⟩
  · simp only [List.length_cons] at hlen
    omega

theorem tryBranchMin_sound {k : Nat} {s : List Char}
    {q : Option (List Char) × Option (List Char) × Option (List Char)}
    (h : tryBranchMin k s = some q) :
    ∃ m2 rest, s = m2 ++ ':' :: rest ∧ allDigits m2 = true ∧ m2.length = k
      ∧ ∃ p, matchSecFrac rest = some p ∧ q = (some m2, p.1, p.2) := by
  unfold tryBranchMin at h
  cases hk : takeDigits k s with
  | none => rw [hk] at h; exact Option.noConfusion h
  | some dr =>
    simp only [hk] at h
    cases hcol : expectColon dr.2 with
    | none => rw [hcol] at h; exact Option.noConfusion h
    | some r2 =>
      simp only [hcol] at h
      cases hsf : matchSecFrac r2 with
      | none => rw [hsf] at h; exact Option.noConfusion h
      | some p =>
        simp only [hsf, Option.map_some', Option.some.injEq] at h
        obtain ⟨h1, h2, h3⟩ := takeDigits_sound hk
        have h4 := expectColon_sound hcol
        refine ⟨dr.1, r2, ?_, h2, h3, p, hsf, h.symm⟩
        rw [h1, h4]

theorem tryBranchMin_of (k : Nat) {m2 rest : List Char} (hm : allDigits m2 = true)
    (hk : m2.length = k) {p : Option (List Char) × Option (List Char)}
    (hp : matchSecFrac rest = some p) :
    tryBranchMin k (m2 ++ ':' :: rest) = some (some m2, p.1, p.2) := by
  unfold tryBranchMin
  rw [← hk, takeDigits_append m2 hm (':' :: rest)]
  simp only [expectColon_cons, hp, Option.map_some']

theorem matchMinSecFrac_cascade {s : List Char}
    (h : (∃ x, tryBranchMin 2 s = some x) ∨ (∃ x, tryBranchMin 1 s = some x)
      ∨ (∃ r2, s = ':' :: r2 ∧ ∃ p, matchSecFrac r2 = some p)) :
    ∃ q, matchMinSecFrac s = some q := by
  unfold matchMinSecFrac
  cases h2 : tryBranchMin 2 s with
  | some x => exact ⟨x, rfl⟩
  | none =>
    cases h1 : tryBranchMin 1 s with
    | some x => exact ⟨x, rfl⟩
    | none =>
      rcases h with ⟨x, hx⟩ | ⟨x, hx⟩ | ⟨r2, rfl, p, hp⟩
      · rw [h2] at hx; exact Option.noConfusion hx
      · rw [h1] at hx; exact Option.noConfusion hx
      · exact ⟨(none, p.1, p.2), by simp only [expectColon_cons, hp, Option.map_some']⟩

theorem matchMinSecFrac_sound {s : List Char}
    {q : Option (List Char) × Option (List Char) × Option (List Char)}
    (h : matchMinSecFrac s = some q) :
    (∃ m2 se fr, s = m2 ++ ':' :: (se ++ fr) ∧ allDigits m2 = true ∧ m2.length ≤ 2
      ∧ allDigits se = true ∧ se.length ≤ 2 ∧ FrListShape fr)
    ∧ SubShape q.2.2 := by
  unfold matchMinSecFrac at h
  cases h2 : tryBranchMin 2 s with
  | some x =>
    simp only [h2, Option.some.injEq] at h
    subst h
    obtain ⟨m2, rest, hs, hd, hl, p, hp, hq⟩ := tryBranchMin_sound h2
    obtain ⟨⟨se, fr, hrest, hsd, hsl, hfr⟩, hsub⟩ := matchSecFrac_sound hp
    subst hq
    exact ⟨⟨m2, se, fr, by rw [hs, hrest], hd, by omega, hsd, hsl, hfr⟩, hsub⟩
  | none =>
    simp only [h2] at h
    cases h1 : tryBranchMin 1 s with
    | some x =>
      simp only [h1, Option.some.injEq] at h
      subst h
      obtain ⟨m2, rest, hs, hd, hl, p, hp, hq⟩ := tryBranchMin_sound h1
      obtain ⟨⟨se, fr, hrest, hsd, hsl, hfr⟩, hsub⟩ := matchSecFrac_sound hp
      subst hq
      exact ⟨⟨m2, se, fr, by rw [hs, hrest], hd, by omega, hsd, hsl, hfr⟩, hsub⟩
    | none =>
      simp only [h1] at h
      cases hcol : expectColon s with
      | none => rw [hcol] at h; exact Option.noConfusion h
      | some r2 =>
        simp only [hcol] at h
        cases hp : matchSecFrac r2 with
        | none => rw [hp] at h; exact Option.noConfusion h
        | some p =>
          simp only [hp, Option.map_some', Option.some.injEq] at h
          obtain ⟨⟨se, fr, hrest, hsd, hsl, hfr⟩, hsub⟩ := matchSecFrac_sound hp
          have hs := expectColon_sound hcol
          refine ⟨⟨[], se, fr, by rw [hs, hrest]; rfl, rfl, by simp, hsd, hsl, hfr⟩, ?_⟩
          rw [← h]
          exact hsub

theorem matchMinSecFrac_complete {m2 se fr : List Char} (hm : allDigits m2 = true)
    (hml : m2.length ≤ 2) (hse : allDigits se = true) (hsl : se.length ≤ 2)
    (hfr : FrListShape fr) :
    ∃ q, matchMinSecFrac (m2 ++ ':' :: (se ++ fr)) = some q := by
  obtain ⟨p, hp⟩ := matchSecFrac_complete hse hsl hfr
  apply matchMinSecFrac_cascade
  rcases m2 with _ | ⟨a, _ | ⟨b, _ | ⟨c, rest⟩⟩⟩
  · exact Or.inr (Or.inr ⟨se ++ fr, rfl, p, hp⟩)
  · exact Or.inr (Or.inl ⟨_, tryBranchMin_of 1 hm rfl hp⟩)
  · exact Or.inl ⟨_, tryBranchMin_of 2 hm rfl hp⟩
  · simp only [List.length_cons] at hml
    omega

theorem tryBranchHour_sound {k : Nat} {s : List Char} {t : TimeGroups}
    (h : tryBranchHour k s = some t) :
    ∃ hd rest, s = hd ++ ':' :: rest ∧ allDigits hd = true ∧ hd.length = k
      ∧ ∃ q, matchMinSecFrac rest = some q ∧ t = ⟨hd, q.1, q.2.1, q.2.2⟩ := by
  unfold tryBranchHour at h
  cases hk : takeDigits k s with
  | none => rw [hk] at h; exact Option.noConfusion h
  | some dr =>
    simp only [hk] at h
    cases hcol : expectColon dr.2 with
    | none => rw [hcol] at h; exact Option.noConfusion h
    | some r2 =>
      simp only [hcol] at h
      cases hq : matchMinSecFrac r2 with
      | none => rw [hq] at h; exact Option.noConfusion h
      | some q =>
        simp only [hq, Option.map_some', Option.some.injEq] at h
        obtain ⟨h1, h2, h3⟩ := takeDigits_sound hk
        have h4 := expectColon_sound hcol
        refine ⟨dr.1, r2, ?_, h2, h3, q, hq, h.symm⟩
        rw [h1, h4]

theorem tryBranchHour_of (k : Nat) {hd rest : List Char} (hm : allDigits hd = true)
    (hk : hd.length = k)
    {q : Option (List Char) × Option (List Char) × Option (List Char)}
    (hq : matchMinSecFrac rest = some q) :
    tryBranchHour k (hd ++ ':' :: rest) = some ⟨hd, q.1, q.2.1, q.2.2⟩ := by
  unfold tryBranchHour
  rw [← hk, takeDigits_append hd hm (':' :: rest)]
  simp only [expectColon_cons, hq, Option.map_some']

theorem matchTimeFull_cascade {s : List Char}
    (h : (∃ x, tryBranchHour 2 s = some x) ∨ (∃ x, tryBranchHour 1 s = some x)) :
    ∃ t, matchTimeFull s = some t := by
  unfold matchTimeFull
  cases h2 : tryBranchHour 2 s with
  | some x => exact ⟨x, rfl⟩
  | none =>
    rcases h with ⟨x, hx⟩ | ⟨x, hx⟩
    · rw [h2] at hx; exact Option.noConfusion hx
    · exact ⟨x, hx⟩

theorem matchTimeFull_sound {s : List Char} {t : TimeGroups}
    (h : matchTimeFull s = some t) : TimeSegShape s ∧ SubShape t.subsecond := by
  unfold matchTimeFull at h
  have hmain : ∃ k, 1 ≤ k ∧ k ≤ 2 ∧ tryBranchHour k s = some t := by
    cases h2 : tryBranchHour 2 s with
    | some x =>
      simp only [h2, Option.some.injEq] at h
      subst h
      exact ⟨2, by omega, by omega, h2⟩
    | none =>
      simp only [h2] at h
      exact ⟨1, by omega, by omega, h⟩
  obtain ⟨k, hk1, hk2, hbr⟩ := hmain
  obtain ⟨hd, rest, hs, hdd, hdl, q, hq, ht⟩ := tryBranchHour_sound hbr
  obtain ⟨⟨m2, se, fr, hrest, hm2, hm2l, hse, hsel, hfr⟩, hsub⟩ := matchMinSecFrac_sound hq
  constructor
  · exact ⟨hd, m2, se, fr, by rw [hs, hrest], hdd, by omega, by omega, hm2, hm2l, hse, hsel, hfr⟩
  · rw [ht]
    exact hsub

theorem matchTimeFull_complete {s : List Char} (h : TimeSegShape s) :
    ∃ t, matchTimeFull s = some t := by
  obtain ⟨hd, m2, se, fr, rfl, hdd, hd1, hd2, hm2, hm2l, hse, hsel, hfr⟩ := h
  obtain ⟨q, hq⟩ := matchMinSecFrac_complete hm2 hm2l hse hsel hfr
  apply matchTimeFull_cascade
  rcases hd with _ | ⟨a, _ | ⟨b, _ | ⟨c, rest⟩⟩⟩
  · simp at hd1
  · exact Or.inr ⟨_, tryBranchHour_of 1 hdd rfl hq⟩
  · exact Or.inl ⟨_, tryBranchHour_of 2 hdd rfl hq⟩
  · simp only [List.length_cons] at hd2
    omega

/-! ## C2: the exact language of the time segment -/

/-- C2 (amended): the time segment of `COMMON` (leading space aside) matches
exactly the strings of the shape: 1–2 digit hour, a mandatory `:`, an
optional 1–2 digit minute, a second **mandatory** `:`, an optional 1–2 digit
second, and an optional fractional suffix introduced by `.`, `|` or `,` with
1–9 digits.  (Against the claim: the second `:` is not optional — so
`"12:30"` is rejected — and `|` is a third accepted introducer.) -/
theorem c2_time_segment_language (s : List Char) :
    (matchTimeFull s).isSome = true ↔ TimeSegShape s := by
  constructor
  · intro h
    obtain ⟨t, ht⟩ := Option.isSome_iff_exists.mp h
    exact (matchTimeFull_sound ht).1
  · intro h
    obtain ⟨t, ht⟩ := matchTimeFull_complete h
    rw [ht]
    rfl

theorem c2_witness : TimeSegShape ("12:30:45.123".data) :=
  (c2_time_segment_language ("12:30:45.123".data)).mp rfl

/-- C2 counterexample: `"12:30"` has the shape the claim describes (hour,
`:`, minute, no second part), yet the time segment — and the whole `COMMON`
pattern, and `_parse_common` — reject it, because the pattern makes the
second `:` mandatory. -/
theorem c2_counterexample :
    matchTimeFull ("12:30".data) = none
    ∧ COMMONmatch ("12:30".data) = none
    ∧ _parse_common "12:30" false
        = Except.error (PyError.parserError "Invalid datetime string") :=
  ⟨rfl, rfl, rfl⟩

/-! ## The subsecond invariant through the whole pattern -/

theorem mapSome_sub {s : List Char} {ot : Option TimeGroups}
    (h : (matchTimeFull s).map some = some ot) :
    ∀ t, ot = some t → SubShape t.subsecond := by
  intro t hot
  subst hot
  cases hf : matchTimeFull s with
  | none => rw [hf] at h; exact Option.noConfusion h
  | some t2 =>
    rw [hf] at h
    simp only [Option.map_some', Option.some.injEq] at h
    subst h
    exact (matchTimeFull_sound hf).2

theorem matchTimeAtEnd_sub {s : List Char} {ot : Option TimeGroups}
    (h : matchTimeAtEnd s = some ot) :
    ∀ t, ot = some t → SubShape t.subsecond := by
  cases s with
  | nil =>
    intro t hot
    simp only [matchTimeAtEnd, Option.some.injEq] at h
    rw [← h] at hot
    exact Option.noConfusion hot
  | cons c r =>
    simp only [matchTimeAtEnd] at h
    split_ifs at h
    · exact mapSome_sub h
    · exact mapSome_sub h

theorem COMMONcore_sub {s : List Char} {g : Groups} (h : COMMONcore s = some g) :
    ∀ t, g.time = some t → SubShape t.subsecond := by
  unfold COMMONcore at h
  cases h4 : takeDigits 4 s with
  | none =>
    simp only [h4] at h
    cases hte : matchTimeAtEnd s with
    | none => rw [hte] at h; exact Option.noConfusion h
    | some ot =>
      simp only [hte, Option.map_some', Option.some.injEq] at h
      subst h
      intro t ht
      exact matchTimeAtEnd_sub hte t ht
  | some yr =>
    simp only [h4] at h
    cases htd : tryDateMonthday yr.1 yr.2 with
    | some g2 =>
      simp only [htd, Option.some.injEq] at h
      subst h
      unfold tryDateMonthday at htd
      cases hmd : matchMonthday yr.2 with
      | none => rw [hmd] at htd; exact Option.noConfusion htd
      | some mdr =>
        simp only [hmd] at htd
        cases hte : matchTimeAtEnd mdr.2 with
        | none => rw [hte] at htd; exact Option.noConfusion htd
        | some ot =>
          simp only [hte, Option.map_some', Option.some.injEq] at htd
          subst htd
          intro t ht
          exact matchTimeAtEnd_sub hte t ht
    | none =>
      simp only [htd] at h
      cases hte : matchTimeAtEnd yr.2 with
      | some ot =>
        simp only [hte, Option.map_some', Option.some.injEq] at h
        subst h
        intro t ht
        exact matchTimeAtEnd_sub hte t ht
      | none =>
        simp only [hte, Option.map_none'] at h
        cases hte2 : matchTimeAtEnd s with
        | none => rw [hte2] at h; exact Option.noConfusion h
        | some ot =>
          simp only [hte2, Option.map_some', Option.some.injEq] at h
          subst h
          intro t ht
          exact matchTimeAtEnd_sub hte2 t ht

theorem COMMONmatch_sub {s : List Char} {g : Groups} (h : COMMONmatch s = some g) :
    ∀ t, g.time = some t → SubShape t.subsecond :=
  COMMONcore_sub h

/-! ## C7: the 6-digit fixed-point subsecond rule -/

theorem digitsToNat_foldl_replicate (k : Nat) (a : Nat) :
    List.foldl (fun a c => a * 10 + (c.toNat - 48)) a (List.replicate k '0') = a * 10 ^ k := by
  induction k generalizing a with
  | zero => simp
  | succ k ih =>
    rw [List.replicate_succ, List.foldl_cons, ih]
    have h0 : ('0'.toNat - 48) = 0 := rfl
    rw [h0]
    ring

theorem digitsToNat_append_zeros (s : List Char) (k : Nat) :
    digitsToNat (s ++ List.replicate k '0') = digitsToNat s * 10 ^ k := by
  unfold digitsToNat
  rw [List.foldl_append]
  exact digitsToNat_foldl_replicate k _

/-- C7: every subsecond capture accepted by the `COMMON` matcher is a string
of one to nine digits, and the microsecond count computed from it is the
6-digit fixed-point reading: sources of six or more digits are truncated to
their first six, shorter sources are multiplied by the power of ten that
right-pads them to six digits. -/
theorem c7_subsecond_fixed_point (text : String) (g : Groups) (t : TimeGroups)
    (ss : List Char) (hm : COMMONmatch text.data = some g) (ht : g.time = some t)
    (hs : t.subsecond = some ss) :
    (allDigits ss = true ∧ 1 ≤ ss.length ∧ ss.length ≤ 9)
    ∧ subsecondMicro ss
        = (if 6 ≤ ss.length then digitsToNat (ss.take 6)
           else digitsToNat ss * 10 ^ (6 - ss.length)) := by
  have hsub := COMMONmatch_sub hm t ht ss hs
  refine ⟨hsub, ?_⟩
  unfold subsecondMicro
  by_cases h6 : 6 ≤ ss.length
  · rw [if_pos h6]
    have hl : (ss.take 6).length = 6 := by
      rw [List.length_take]
      omega
    rw [hl]
    simp
  · rw [if_neg h6]
    have htake : ss.take 6 = ss := List.take_of_length_le (by omega)
    rw [htake, digitsToNat_append_zeros]

theorem c7_witness :
    (allDigits ['1', '2', '3', '4'] = true
      ∧ 1 ≤ (['1', '2', '3', '4'] : List Char).length
      ∧ (['1', '2', '3', '4'] : List Char).length ≤ 9)
    ∧ subsecondMicro ['1', '2', '3', '4']
        = (if 6 ≤ (['1', '2', '3', '4'] : List Char).length
           then digitsToNat ((['1', '2', '3', '4'] : List Char).take 6)
           else digitsToNat ['1', '2', '3', '4'] * 10 ^ (6 - (['1', '2', '3', '4'] : List Char).length)) :=
  c7_subsecond_fixed_point "12:30:45.1234"
    ⟨none, some ⟨['1', '2'], some ['3', '0'], some ['4', '5'], some ['1', '2', '3', '4']⟩⟩
    ⟨['1', '2'], some ['3', '0'], some ['4', '5'], some ['1', '2', '3', '4']⟩
    ['1', '2', '3', '4'] rfl rfl rfl

/-! ## C8: the `day_first` swap -/

theorem resolveMD_true (md : List Char × List Char) :
    resolveMD true md = (digitsToNat md.2, digitsToNat md.1) := rfl

theorem resolveMD_false (md : List Char × List Char) :
    resolveMD false md = (digitsToNat md.1, digitsToNat md.2) := rfl

/-- C8: when the `COMMON` match carries both the month-position and the
day-position numeric group, `day_first=true` assigns the month-position group
to the day field and the day-position group to the month field, while
`day_first=false` assigns them positionally; on any input where both option
values succeed, the two results have month and day swapped and the same
year. -/
theorem c8_day_first_swap (text : String) (g : Groups) (dg : DateGroups)
    (md : List Char × List Char) (v1 v2 : Parsed)
    (hm : COMMONmatch text.data = some g) (hd : g.date = some dg)
    (hmd : dg.monthday = some md)
    (hv1 : _parse_common text true = Except.ok v1)
    (hv2 : _parse_common text false = Except.ok v2) :
    monthOf v1 = digitsToNat md.2 ∧ dayOf v1 = digitsToNat md.1
    ∧ monthOf v2 = digitsToNat md.1 ∧ dayOf v2 = digitsToNat md.2
    ∧ monthOf v1 = dayOf v2 ∧ dayOf v1 = monthOf v2 ∧ yearOf v1 = yearOf v2 := by
  unfold _parse_common at hv1 hv2
  rw [hm] at hv1 hv2
  obtain ⟨gdate, gtime⟩ := g
  change gdate = some dg at hd
  subst hd
  obtain ⟨yr, mdo⟩ := dg
  change mdo = some md at hmd
  subst hmd
  cases gtime with
  | none =>
    have hv1s := mkDate_ok (show mkDate (digitsToNat yr) (digitsToNat md.2) (digitsToNat md.1)
      = Except.ok v1 from hv1)
    have hv2s := mkDate_ok (show mkDate (digitsToNat yr) (digitsToNat md.1) (digitsToNat md.2)
      = Except.ok v2 from hv2)
    subst hv1s
    subst hv2s
    exact ⟨rfl, rfl, rfl, rfl, rfl, rfl, rfl⟩
  | some t =>
    obtain ⟨thr, tmin, tsec, tsub⟩ := t
    cases tmin with
    | none =>
      exact Except.noConfusion (show Except.error
        (PyError.typeError "int() argument must be a string, not NoneType")
        = Except.ok v1 from hv1)
    | some mi =>
      cases tsec with
      | none =>
        exact Except.noConfusion (show Except.error
          (PyError.typeError "int() argument must be a string, not NoneType")
          = Except.ok v1 from hv1)
      | some se =>
        cases tsub with
        | none =>
          have hv1s := mkDatetime_ok (show mkDatetime (digitsToNat yr) (digitsToNat md.2)
            (digitsToNat md.1) (digitsToNat thr) (digitsToNat mi) (digitsToNat se) 0
            = Except.ok v1 from hv1)
          have hv2s := mkDatetime_ok (show mkDatetime (digitsToNat yr) (digitsToNat md.1)
            (digitsToNat md.2) (digitsToNat thr) (digitsToNat mi) (digitsToNat se) 0
            = Except.ok v2 from hv2)
          subst hv1s
          subst hv2s
          exact ⟨rfl, rfl, rfl, rfl, rfl, rfl, rfl⟩
        | some ss =>
          have hv1s := mkDatetime_ok (show mkDatetime (digitsToNat yr) (digitsToNat md.2)
            (digitsToNat md.1) (digitsToNat thr) (digitsToNat mi) (digitsToNat se)
            (subsecondMicro ss) = Except.ok v1 from hv1)
          have hv2s := mkDatetime_ok (show mkDatetime (digitsToNat yr) (digitsToNat md.1)
            (digitsToNat md.2) (digitsToNat thr) (digitsToNat mi) (digitsToNat se)
            (subsecondMicro ss) = Except.ok v2 from hv2)
          subst hv1s
          subst hv2s
          exact ⟨rfl, rfl, rfl, rfl, rfl, rfl, rfl⟩

theorem c8_witness :
    _parse_common "2016/05/06" true = Except.ok (Parsed.date 2016 6 5)
    ∧ _parse_common "2016/05/06" false = Except.ok (Parsed.date 2016 5 6)
    ∧ monthOf (Parsed.date 2016 6 5) = 6 ∧ dayOf (Parsed.date 2016 6 5) = 5
    ∧ monthOf (Parsed.date 2016 5 6) = 5 ∧ dayOf (Parsed.date 2016 5 6) = 6 := by
  have h := c8_day_first_swap "2016/05/06"
    ⟨some ⟨['2', '0', '1', '6'], some (['0', '5'], ['0', '6'])⟩, none⟩
    ⟨['2', '0', '1', '6'], some (['0', '5'], ['0', '6'])⟩
    (['0', '5'], ['0', '6'])
    (Parsed.date 2016 6 5) (Parsed.date 2016 5 6)
    rfl rfl rfl rfl rfl
  exact ⟨rfl, rfl, h.1, h.2.1, h.2.2.1, h.2.2.2.1⟩

end Pendulum
